import Mathlib

/-!
Verification of the IRS EIN automation service (`ein_automation_final.py`).

Strings from the Python side are modelled as `List Char` (ASCII text).
Python `None` for an optional argument is modelled as `Option.none`;
machine integers are `Int`/`Nat` (Python integers are unbounded).
-/

set_option autoImplicit false

namespace EinAuto

/-- Convert a Lean string literal to the `List Char` representation. -/
def s2c (s : String) : List Char := s.data

/-- Python `str.lower()` restricted to ASCII text (`Char.toLower` per character). -/
def lowerL (s : List Char) : List Char := s.map Char.toLower

/-- Python `str.upper()` restricted to ASCII text. -/
def upperL (s : List Char) : List Char := s.map Char.toUpper

/-- Python `str` whitespace (ASCII part): space, tab, newline, carriage
return, vertical tab, form feed. -/
def pyIsSpace (c : Char) : Bool :=
  c = ' ' || c = '\t' || c = '\n' || c = '\r' || c = '\x0b' || c = '\x0c'

/-- Python `str.strip()` (ASCII whitespace). -/
def pyStrip (s : List Char) : List Char :=
  ((s.dropWhile pyIsSpace).reverse.dropWhile pyIsSpace).reverse

/-- Keep only decimal-digit characters: Python `re.sub(r"\D", "", s)`. -/
def digitsOf (s : List Char) : List Char := s.filter Char.isDigit

/-- `format_phone` (source lines 278-285): if the argument is falsy it is
replaced by the fallback number; all non-digits are stripped; if the result
is not exactly 10 digits long it is replaced by the fallback; the digits are
split `[:3]`, `[3:6]`, `[6:10]`. -/
def format_phone (phone : Option (List Char)) : List Char × List Char × List Char :=
  let p := match phone with
    | none => s2c "2812173123"
    | some s => if s = [] then s2c "2812173123" else s
  let clean_phone := digitsOf p
  let clean_phone := if clean_phone.length ≠ 10 then s2c "2812173123" else clean_phone
  (clean_phone.take 3, (clean_phone.drop 3).take 3, (clean_phone.drop 6).take 4)

/-- Nested JSON documents: the shape of the `json_summary` payload. -/
inductive Json where
  | null
  | bool (b : Bool)
  | num (n : Int)
  | str (s : List Char)
  | arr (items : List Json)
  | obj (entries : List (List Char × Json))

/-- Python truthiness of a JSON value (`if not json_summary`). -/
def pyTruthy : Json → Bool
  | .null => false
  | .bool b => b
  | .num n => n != 0
  | .str s => !s.isEmpty
  | .arr l => !l.isEmpty
  | .obj l => !l.isEmpty

/-- The search pattern of `determine_llc_members`. -/
def rpPat : List Char := s2c "responsible party-"

/-- Python substring containment: `pat in s`. -/
def containsSub (pat : List Char) : List Char → Bool
  | [] => pat.isEmpty
  | c :: rest => pat.isPrefixOf (c :: rest) || containsSub pat rest

/-- Python `s.split("responsible party-")`: split on every non-overlapping
occurrence of the pattern, scanning left to right. -/
def splitRP (s : List Char) : List (List Char) :=
  if hpre : rpPat.isPrefixOf s then
    [] :: splitRP (s.drop rpPat.length)
  else
    match s with
    | [] => [[]]
    | c :: rest =>
      match splitRP rest with
      | [] => [[c]]
      | h :: t => (c :: h) :: t
  termination_by s.length
  decreasing_by
  · have hle : rpPat.length ≤ s.length :=
      (List.isPrefixOf_iff_prefix.mp hpre).length_le
    have hpos : 0 < rpPat.length := by decide
    simp only [List.length_drop]
    omega
  · simp

/-- Tokenizer behind `wsplit`: `cur` is the current token, reversed. -/
def wsplitAux : List Char → List Char → List (List Char)
  | cur, [] => if cur = [] then [] else [cur.reverse]
  | cur, c :: rest =>
    if pyIsSpace c then
      if cur = [] then wsplitAux [] rest else cur.reverse :: wsplitAux [] rest
    else wsplitAux (c :: cur) rest

/-- Python `s.split()` (no argument): split on runs of whitespace,
discarding empty pieces. -/
def wsplit (s : List Char) : List (List Char) := wsplitAux [] s

/-- The inner extraction of `determine_llc_members` (source line 251):
`key.lower().split("responsible party-")[-1].split()[0]`.  Taking `[0]` of
an empty token list raises `IndexError`, modelled by `Except.error`. -/
def partyNum (key : List Char) : Except Unit (List Char) :=
  match wsplit ((splitRP (lowerL key)).getLastD []) with
  | [] => .error ()
  | t :: _ => .ok t

/-- Valid digit body for Python `int()`: a nonempty digit sequence in which
single underscores may appear between digits. -/
def digRun : List Char → Bool
  | [] => false
  | [c] => c.isDigit
  | c :: '_' :: rest => c.isDigit && digRun rest
  | c :: rest => c.isDigit && digRun rest

/-- Numeric value of a digit run, ignoring underscores. -/
def digsVal (s : List Char) : Int :=
  (s.filter (fun c => c != '_')).foldl (fun acc c => acc * 10 + ((c.toNat : Int) - 48)) 0

/-- Python `int(s)` on a whitespace-free token: an optional sign followed by
digits (with embedded single underscores); anything else raises
`ValueError`, modelled by `none`. -/
def pyIntChars : List Char → Option Int
  | '+' :: rest => if digRun rest then some (digsVal rest) else none
  | '-' :: rest => if digRun rest then some (-(digsVal rest)) else none
  | s => if digRun s then some (digsVal s) else none

/-- Effectful map over a list in the `Except` monad (left to right,
stopping at the first error). -/
def mapME {α β : Type} (f : α → Except Unit β) : List α → Except Unit (List β)
  | [] => .ok []
  | x :: xs =>
    match f x with
    | .error e => .error e
    | .ok y =>
      match mapME f xs with
      | .error e => .error e
      | .ok ys => .ok (y :: ys)

/-- Effectful map over a list in the `Option` monad. -/
def mapMO {α β : Type} (f : α → Option β) : List α → Option (List β)
  | [] => some []
  | x :: xs =>
    match f x with
    | none => none
    | some y =>
      match mapMO f xs with
      | none => none
      | some ys => some (y :: ys)

/-- The recursive `search_parties` of `determine_llc_members` (source lines
247-257): walk the document; for every dictionary key containing the
pattern (case-insensitively), extract the token after the last occurrence
(an exception aborts the whole walk); recurse into dict and list values.
The Python code accumulates into a set; a list in traversal order is used
here, which changes neither the maximum nor the error outcome. -/
def searchJson : Json → Except Unit (List (List Char))
  | .obj [] => .ok []
  | .obj ((k, v) :: rest) =>
    if containsSub rpPat (lowerL k) then
      match partyNum k with
      | .error e => .error e
      | .ok t =>
        match searchJson v with
        | .error e => .error e
        | .ok s =>
          match searchJson (.obj rest) with
          | .error e => .error e
          | .ok r => .ok (t :: (s ++ r))
    else
      match searchJson v with
      | .error e => .error e
      | .ok s =>
        match searchJson (.obj rest) with
        | .error e => .error e
        | .ok r => .ok (s ++ r)
  | .arr [] => .ok []
  | .arr (x :: rest) =>
    match searchJson x with
    | .error e => .error e
    | .ok s =>
      match searchJson (.arr rest) with
      | .error e => .error e
      | .ok r => .ok (s ++ r)
  | .null => .ok []
  | .bool _ => .ok []
  | .num _ => .ok []
  | .str _ => .ok []

/-- `determine_llc_members` (source lines 240-262): 2 for a falsy document;
otherwise collect the party tokens (any traversal exception gives 2), and
return the maximum of their integer values, 2 when no token was collected,
and 2 when any token fails integer parsing. -/
def determine_llc_members (json_summary : Option Json) : Int :=
  match json_summary with
  | none => 2
  | some j =>
    if pyTruthy j = false then 2
    else
      match searchJson j with
      | .error _ => 2
      | .ok ts =>
        match mapMO pyIntChars ts with
        | some [] => 2
        | some (n :: ns) => ns.foldl max n
        | none => 2

/-- Specification-side collector: every dictionary key of a document, at
any depth, in traversal order. -/
def jsonKeys : Json → List (List Char)
  | .obj [] => []
  | .obj ((k, v) :: rest) => k :: (jsonKeys v ++ jsonKeys (.obj rest))
  | .arr [] => []
  | .arr (x :: rest) => jsonKeys x ++ jsonKeys (.arr rest)
  | .null => []
  | .bool _ => []
  | .num _ => []
  | .str _ => []

/-- Specification-side: the keys whose lowercased text contains the
pattern "responsible party-". -/
def partyKeys (j : Json) : List (List Char) :=
  (jsonKeys j).filter (fun k => containsSub rpPat (lowerL k))

/-- Specification-side: the numeric suffixes of all matching keys; `none`
when a suffix is missing or fails integer parsing. -/
def suffixValsOf (j : Json) : Option (List Int) :=
  mapMO (fun k => (partyNum k).toOption.bind pyIntChars) (partyKeys j)

/-- A concrete nested document with two matching keys, suffixes 3 and 7. -/
def jC1 : Json :=
  Json.obj [(s2c "Responsible Party-3", Json.null),
    (s2c "x", Json.arr [Json.obj [(s2c "responsible party-7 name", Json.num 1)]])]

/-- A decimal digit character and its value (regex `\d`). -/
def digit? (c : Char) : Option Nat :=
  if c.isDigit then some (c.toNat - 48) else none

/-- Regex `\d\d\d\d` (CPython `_strptime` pattern for `%Y`): exactly four
digits; at most one candidate parse. -/
def matchY : List Char → List (Nat × List Char)
  | a :: b :: c :: d :: rest =>
    (match digit? a, digit? b, digit? c, digit? d with
     | some w, some x, some y, some z => [(w * 1000 + x * 100 + y * 10 + z, rest)]
     | _, _, _, _ => [])
  | _ => []

/-- Regex `1[0-2]|0[1-9]|[1-9]` (CPython pattern for `%m`): candidate
parses in regex alternation (= backtracking) order. -/
def matchM (s : List Char) : List (Nat × List Char) :=
  (match s with
   | a :: b :: rest =>
     (if a == '1' && (b == '0' || b == '1' || b == '2')
       then [(10 + (b.toNat - 48), rest)] else []) ++
     (if a == '0' && b.isDigit && b != '0' then [(b.toNat - 48, rest)] else [])
   | _ => []) ++
  (match s with
   | a :: rest => if a.isDigit && a != '0' then [(a.toNat - 48, rest)] else []
   | [] => [])

/-- Regex `3[01]|[12]\d|0[1-9]|[1-9]` (CPython pattern for `%d`):
candidate parses in regex alternation order. -/
def matchD (s : List Char) : List (Nat × List Char) :=
  (match s with
   | a :: b :: rest =>
     (if a == '3' && (b == '0' || b == '1') then [(30 + (b.toNat - 48), rest)] else []) ++
     (if (a == '1' || a == '2') && b.isDigit
       then [((a.toNat - 48) * 10 + (b.toNat - 48), rest)] else []) ++
     (if a == '0' && b.isDigit && b != '0' then [(b.toNat - 48, rest)] else [])
   | _ => []) ++
  (match s with
   | a :: rest => if a.isDigit && a != '0' then [(a.toNat - 48, rest)] else []
   | [] => [])

/-- A literal character in a format string. -/
def litc (c : Char) : List Char → List (List Char)
  | x :: rest => if x == c then [rest] else []
  | [] => []

/-- All full regex matches of a `%Y<sep>%m<sep>%d` format, as (y, m, d), in
backtracking order; `strptime` takes the first and requires the whole
string to be consumed. -/
def parsesYmd (sep : Char) (s : List Char) : List (Nat × Nat × Nat) :=
  (matchY s).flatMap fun p =>
  (litc sep p.2).flatMap fun r2 =>
  (matchM r2).flatMap fun q =>
  (litc sep q.2).flatMap fun r4 =>
  (matchD r4).flatMap fun t =>
  if t.2.isEmpty then [(p.1, q.1, t.1)] else []

/-- All full regex matches of the `%m/%d/%Y` format, as (y, m, d). -/
def parsesMdy (s : List Char) : List (Nat × Nat × Nat) :=
  (matchM s).flatMap fun p =>
  (litc '/' p.2).flatMap fun r2 =>
  (matchD r2).flatMap fun q =>
  (litc '/' q.2).flatMap fun r4 =>
  (matchY r4).flatMap fun t =>
  if t.2.isEmpty then [(t.1, p.1, q.1)] else []

/-- Gregorian leap-year rule (Python `datetime`). -/
def isLeapYear (y : Nat) : Bool :=
  (y % 4 == 0 && y % 100 != 0) || y % 400 == 0

/-- Days in a month (Python `datetime`). -/
def daysInMonth (y m : Nat) : Nat :=
  if m == 2 then (if isLeapYear y then 29 else 28)
  else if m == 4 || m == 6 || m == 9 || m == 11 then 30 else 31

/-- `datetime.strptime` followed by reading `.month` and `.year`: take the
first full regex match; constructing the date validates the year range and
the day against the month length (a bad date raises `ValueError` = `none`).
Returns (month, year). -/
def strptimeMY (parses : List (Nat × Nat × Nat)) : Option (Nat × Nat) :=
  match parses.head? with
  | none => none
  | some (y, m, d) =>
    if 1 ≤ y ∧ 1 ≤ d ∧ d ≤ daysInMonth y m then some (m, y) else none

/-- `datetime.strptime(s, "%Y-%m-%d")` projected to (month, year). -/
def pyStrptimeYmdDash (s : List Char) : Option (Nat × Nat) :=
  strptimeMY (parsesYmd '-' s)

/-- `datetime.strptime(s, "%m/%d/%Y")` projected to (month, year). -/
def pyStrptimeMdySlash (s : List Char) : Option (Nat × Nat) :=
  strptimeMY (parsesMdy s)

/-- `datetime.strptime(s, "%Y/%m/%d")` projected to (month, year). -/
def pyStrptimeYmdSlash (s : List Char) : Option (Nat × Nat) :=
  strptimeMY (parsesYmd '/' s)

/-- `parse_formation_date` (source lines 264-276): falsy input yields
(6, 2024); otherwise the stripped string is tried against the formats
"%Y-%m-%d", "%m/%d/%Y", "%Y/%m/%d" in order, the first success returning
(month, year); if all fail, (6, 2024). -/
def parse_formation_date (date_str : Option (List Char)) : Nat × Nat :=
  match date_str with
  | none => (6, 2024)
  | some s =>
    if s = [] then (6, 2024)
    else
      match pyStrptimeYmdDash (pyStrip s) with
      | some r => r
      | none =>
        match pyStrptimeMdySlash (pyStrip s) with
        | some r => r
        | none =>
          match pyStrptimeYmdSlash (pyStrip s) with
          | some r => r
          | none => (6, 2024)

/-- Claim-side renderer: digit character. -/
def digitChar (n : Nat) : Char := Char.ofNat (48 + n)

/-- Claim-side renderer: zero-padded two digits. -/
def pad2 (n : Nat) : List Char := [digitChar (n / 10 % 10), digitChar (n % 10)]

/-- Claim-side renderer: zero-padded four digits. -/
def pad4 (n : Nat) : List Char :=
  [digitChar (n / 1000 % 10), digitChar (n / 100 % 10),
   digitChar (n / 10 % 10), digitChar (n % 10)]

/-- A calendar date rendered in the format "%Y-%m-%d". -/
def renderYmdDash (y m d : Nat) : List Char := pad4 y ++ '-' :: (pad2 m ++ '-' :: pad2 d)

/-- A calendar date rendered in the format "%m/%d/%Y". -/
def renderMdySlash (y m d : Nat) : List Char := pad2 m ++ '/' :: (pad2 d ++ '/' :: pad4 y)

/-- A calendar date rendered in the format "%Y/%m/%d". -/
def renderYmdSlash (y m d : Nat) : List Char := pad4 y ++ '/' :: (pad2 m ++ '/' :: pad2 d)

/-- `IRSEINAutomation.STATE_MAPPING` (source lines 207-221). -/
def STATE_MAPPING : List (List Char × List Char) :=
  [(s2c "ALABAMA", s2c "AL"), (s2c "ALASKA", s2c "AK"), (s2c "ARIZONA", s2c "AZ"),
   (s2c "ARKANSAS", s2c "AR"), (s2c "CALIFORNIA", s2c "CA"), (s2c "COLORADO", s2c "CO"),
   (s2c "CONNECTICUT", s2c "CT"), (s2c "DELAWARE", s2c "DE"), (s2c "FLORIDA", s2c "FL"),
   (s2c "GEORGIA", s2c "GA"), (s2c "HAWAII", s2c "HI"), (s2c "IDAHO", s2c "ID"),
   (s2c "ILLINOIS", s2c "IL"), (s2c "INDIANA", s2c "IN"), (s2c "IOWA", s2c "IA"),
   (s2c "KANSAS", s2c "KS"), (s2c "KENTUCKY", s2c "KY"), (s2c "LOUISIANA", s2c "LA"),
   (s2c "MAINE", s2c "ME"), (s2c "MARYLAND", s2c "MD"), (s2c "MASSACHUSETTS", s2c "MA"),
   (s2c "MICHIGAN", s2c "MI"), (s2c "MINNESOTA", s2c "MN"), (s2c "MISSISSIPPI", s2c "MS"),
   (s2c "MISSOURI", s2c "MO"), (s2c "MONTANA", s2c "MT"), (s2c "NEBRASKA", s2c "NE"),
   (s2c "NEVADA", s2c "NV"), (s2c "NEW HAMPSHIRE", s2c "NH"), (s2c "NEW JERSEY", s2c "NJ"),
   (s2c "NEW MEXICO", s2c "NM"), (s2c "NEW YORK", s2c "NY"), (s2c "NORTH CAROLINA", s2c "NC"),
   (s2c "NORTH DAKOTA", s2c "ND"), (s2c "OHIO", s2c "OH"), (s2c "OKLAHOMA", s2c "OK"),
   (s2c "OREGON", s2c "OR"), (s2c "PENNSYLVANIA", s2c "PA"), (s2c "RHODE ISLAND", s2c "RI"),
   (s2c "SOUTH CAROLINA", s2c "SC"), (s2c "SOUTH DAKOTA", s2c "SD"), (s2c "TENNESSEE", s2c "TN"),
   (s2c "TEXAS", s2c "TX"), (s2c "UTAH", s2c "UT"), (s2c "VERMONT", s2c "VT"),
   (s2c "VIRGINIA", s2c "VA"), (s2c "WASHINGTON", s2c "WA"), (s2c "WEST VIRGINIA", s2c "WV"),
   (s2c "WISCONSIN", s2c "WI"), (s2c "WYOMING", s2c "WY"),
   (s2c "DISTRICT OF COLUMBIA", s2c "DC")]

/-- `normalize_state` (source lines 233-238): a falsy argument (None or the
empty string) yields "TX"; otherwise the argument is uppercased and stripped
and looked up in `STATE_MAPPING`; on a miss, a 2-character cleaned string is
returned as-is and anything else yields "TX". -/
def normalize_state (state : Option (List Char)) : List Char :=
  match state with
  | none => s2c "TX"
  | some s =>
    if s = [] then s2c "TX"
    else
      let state_clean := pyStrip (upperL s)
      match List.lookup state_clean STATE_MAPPING with
      | some code => code
      | none => if state_clean.length = 2 then state_clean else s2c "TX"

/-- `IRSEINAutomation.ENTITY_TYPE_MAPPING` (source lines 223-228). -/
def ENTITY_TYPE_MAPPING : List (List Char × List Char) :=
  [(s2c "Limited Liability Company (LLC)", s2c "limited"),
   (s2c "C-Corporation", s2c "corporations"),
   (s2c "S-Corporation", s2c "corporations"),
   (s2c "Corporation", s2c "corporations"),
   (s2c "Sole Proprietorship", s2c "sole"),
   (s2c "Partnership", s2c "partnerships"),
   (s2c "LLC", s2c "limited")]

/-- `CaseData` (source lines 40-61): optional string fields default to
None, `proceed_flag` to "true". -/
structure CaseData where
  record_id : List Char
  entity_name : Option (List Char) := none
  entity_type : Option (List Char) := none
  formation_date : Option (List Char) := none
  business_category : Option (List Char) := none
  business_description : Option (List Char) := none
  business_address_1 : Option (List Char) := none
  entity_state : Option (List Char) := none
  business_address_2 : Option (List Char) := none
  city : Option (List Char) := none
  zip_code : Option (List Char) := none
  quarter_of_first_payroll : Option (List Char) := none
  entity_state_record_state : Option (List Char) := none
  json_summary : Option Json := none
  summary_raw : Option (List Char) := none
  case_contact_name : Option (List Char) := none
  ssn_decrypted : Option (List Char) := none
  case_contact_first_name : Option (List Char) := none
  case_contact_last_name : Option (List Char) := none
  case_contact_phone : Option (List Char) := none
  proceed_flag : Option (List Char) := some (s2c "true")

/-- Python `a or "dflt"` on an optional string: the value when truthy
(present and nonempty), else the default. -/
def pyOrStr (a : Option (List Char)) (dflt : List Char) : List Char :=
  match a with
  | some s => if s = [] then dflt else s
  | none => dflt

/-- Python `a or b` on two optional strings. -/
def pyOrOpt (a b : Option (List Char)) : Option (List Char) :=
  match a with
  | some s => if s = [] then b else some s
  | none => b

/-- One attempted browser interaction of the wizard, in execution order.
The best-effort primitives swallow their own failures, so the attempt list
does not depend on element availability. -/
inductive UIAction where
  | click (desc : List Char)
  | radio (radio_id : List Char)
  | fillNum (field_id : List Char) (value : Int)
  | dropdown (field_id : List Char) (value : List Char)
  | capture (filename : List Char)
deriving DecidableEq

/-- The environment of one automation run: whether `init_browser` or
`driver.get` raises (and the exception text), whether the
print-to-PDF/rasterize pipeline inside the capture step raises, and the
`int(time.time())` timestamp rendered as text. -/
structure RunEnv where
  initBrowserExc : Option (List Char) := none
  navigateExc : Option (List Char) := none
  captureExc : Option (List Char) := none
  timestamp : List Char := []
deriving DecidableEq

/-- `FormAutomationBase.capture_page_as_png` (source lines 169-192): on
success, the PNG path under the static directory and its public URL; any
exception in the pipeline is caught and reported as `(None, None)`.  The
cwd-dependent static directory and configured host are fixed constants
here. -/
def capture_page_as_png (env : RunEnv) (filename : List Char) :
    Option (List Char) × Option (List Char) :=
  match env.captureExc with
  | some _ => (none, none)
  | none =>
    (some (s2c "static/" ++ filename),
     some (s2c "http://localhost:8000/static/" ++ filename))

/-- The success message of `run_automation` (source line 329). -/
def msgFormCompleted : List Char := s2c "Form completed successfully"

/-- `IRSEINAutomation.run_automation` (source lines 287-333), instrumented
with the list of attempted browser actions.  Only `init_browser` and
`driver.get` can raise (the field/click/radio/dropdown primitives catch
their own exceptions, and the capture step reports failure as values); the
top-level `except` converts any exception into `(False, str(e), None,
None)`.  The multi-member radio step runs exactly when the computed member
count equals 2. -/
def run_automation (env : RunEnv) (data : CaseData) :
    (Bool × List Char × Option (List Char) × Option (List Char)) × List UIAction :=
  match env.initBrowserExc with
  | some e => ((false, e, none, none), [])
  | none =>
    match env.navigateExc with
    | some e => ((false, e, none, none), [])
    | none =>
      let entity_type :=
        (List.lookup (pyOrStr data.entity_type (s2c "LLC")) ENTITY_TYPE_MAPPING).getD
          (s2c "limited")
      let llc_members := determine_llc_members data.json_summary
      let state_value :=
        normalize_state (pyOrOpt data.entity_state data.entity_state_record_state)
      let png_filename :=
        s2c "print_" ++ data.record_id ++ s2c "_" ++ env.timestamp ++ s2c ".png"
      let cap := capture_page_as_png env png_filename
      ((true, msgFormCompleted, cap.1, cap.2),
       [UIAction.click (s2c "Begin Application"),
        UIAction.radio entity_type,
        UIAction.click (s2c "Continue"),
        UIAction.click (s2c "Continue"),
        UIAction.fillNum (s2c "numbermem") llc_members,
        UIAction.dropdown (s2c "state") state_value,
        UIAction.click (s2c "Continue")] ++
       (if llc_members = 2 then
         [UIAction.radio (s2c "radio_n"), UIAction.click (s2c "Continue")]
        else []) ++
       [UIAction.capture png_filename])

/-- The session-manager world: the id-to-automation map together with the
set of automation handles whose browser is still live (not cleaned up). -/
structure World where
  sessions : List (List Char × Nat)
  live : List Nat
deriving DecidableEq

/-- `FormAutomationBase.cleanup` (source lines 194-201): quit the browser,
swallowing errors; the handle is no longer live afterwards. -/
def cleanup (live : List Nat) (h : Nat) : List Nat := live.erase h

/-- Python dict assignment `self.sessions[record_id] = automation`: replace
an existing entry, else append. -/
def storeAssign (l : List (List Char × Nat)) (k : List Char) (v : Nat) :
    List (List Char × Nat) :=
  if (List.lookup k l).isSome then
    l.map (fun p => if p.1 = k then (k, v) else p)
  else l ++ [(k, v)]

/-- `SessionManager.store_session` (source lines 365-366): unconditional
dict assignment; nothing is cleaned up. -/
def store_session (w : World) (record_id : List Char) (handle : Nat) : World :=
  { sessions := storeAssign w.sessions record_id handle, live := w.live }

/-- `SessionManager.get_session` (source lines 368-369). -/
def get_session (w : World) (record_id : List Char) : Option Nat :=
  List.lookup record_id w.sessions

/-- `SessionManager.remove_session` (source lines 371-374): pop the entry
and clean its automation up when present; no-op when absent. -/
def remove_session (w : World) (record_id : List Char) : World :=
  match List.lookup record_id w.sessions with
  | some h =>
    { sessions := w.sessions.filter (fun p => p.1 != record_id),
      live := cleanup w.live h }
  | none => w

/-- Python `d.get(k, default)` where the result is used as a dict again;
`.get` on a non-dict raises `AttributeError`. -/
def jGetD (j : Json) (k : List Char) (dflt : Json) : Except (List Char) Json :=
  match j with
  | .obj l => .ok ((List.lookup k l).getD dflt)
  | _ => .error (s2c "AttributeError")

/-- Python `d.get(k)` (default None); `.get` on a non-dict raises
`AttributeError`. -/
def jGet (j : Json) (k : List Char) : Except (List Char) (Option Json) :=
  match j with
  | .obj l => .ok (List.lookup k l)
  | _ => .error (s2c "AttributeError")

/-- Pydantic validation of an `Optional[str]` field: absent or JSON null
becomes None, a string passes through, any other value is rejected. -/
def asStr : Option Json → Except (List Char) (Option (List Char))
  | none => .ok none
  | some .null => .ok none
  | some (.str s) => .ok (some s)
  | some _ => .error (s2c "ValidationError")

/-- Pydantic validation of the `Optional[dict]` field `json_summary`. -/
def asDict : Option Json → Except (List Char) (Option Json)
  | none => .ok none
  | some .null => .ok none
  | some (.obj l) => .ok (some (.obj l))
  | some _ => .error (s2c "ValidationError")

/-- `DataProcessor.map_form_automation_data` (source lines 405-427): fixed
nested lookups with `{}` defaults for the intermediate objects, a constant
record id, and "true" as default proceed flag. -/
def map_form_automation_data (form_data : Json) : Except (List Char) CaseData := do
  let form_automation ← jGetD form_data (s2c "Form_Automation__c") (Json.obj [])
  let entity ← jGetD form_automation (s2c "Entity__r") (Json.obj [])
  let entity_state_obj ← jGetD form_automation (s2c "Entity_State__r") (Json.obj [])
  let case_obj ← jGetD form_automation (s2c "Case__r") (Json.obj [])
  let contact_obj ← jGetD form_automation (s2c "Contact__r") (Json.obj [])
  let member_obj ← jGetD form_automation (s2c "Entity_Member__r") (Json.obj [])
  let entity_name ← asStr (← jGet entity (s2c "Name"))
  let entity_type ← asStr (← jGet entity (s2c "Entity_Type__c"))
  let formation_date ← asStr (← jGet entity (s2c "Formation_Date__c"))
  let business_category ← asStr (← jGet entity (s2c "Business_Category__c"))
  let business_description ← asStr (← jGet entity (s2c "Business_Description__c"))
  let business_address_1 ← asStr (← jGet entity (s2c "Business_Address_1__c"))
  let entity_state ← asStr (← jGet entity_state_obj (s2c "State__c"))
  let city ← asStr (← jGet entity (s2c "City__c"))
  let zip_code ← asStr (← jGet entity (s2c "Zip_Code__c"))
  let json_summary ← asDict (← jGet case_obj (s2c "JSON_Summary__c"))
  let ssn_decrypted ← asStr (← jGet contact_obj (s2c "SSN_Decrypted__c"))
  let case_contact_first_name ← asStr (← jGet member_obj (s2c "FirstName__c"))
  let case_contact_last_name ← asStr (← jGet member_obj (s2c "LastName__c"))
  let case_contact_phone ← asStr (← jGet member_obj (s2c "Phone__c"))
  let proceed_flag ← asStr
    (some (← jGetD form_automation (s2c "proceed_flag") (Json.str (s2c "true"))))
  pure
    { record_id := s2c "temp_record_id",
      entity_name := entity_name,
      entity_type := entity_type,
      formation_date := formation_date,
      business_category := business_category,
      business_description := business_description,
      business_address_1 := business_address_1,
      entity_state := entity_state,
      city := city,
      zip_code := zip_code,
      json_summary := json_summary,
      ssn_decrypted := ssn_decrypted,
      case_contact_first_name := case_contact_first_name,
      case_contact_last_name := case_contact_last_name,
      case_contact_phone := case_contact_phone,
      proceed_flag := proceed_flag }

/-- The configured API key (source line 28). -/
def API_KEY : List Char := s2c "tX9vL2kQwRtY7uJmK3vL8nWcXe5HgH3v"

/-- `str()` of a starlette/FastAPI `HTTPException(status_code, detail)`:
the library renders it as `f"{status_code}: {detail}"`. -/
def httpExcStr (code : Nat) (detail : List Char) : List Char :=
  Nat.toDigits 10 code ++ s2c ": " ++ detail

/-- The response of `/run-irs-ein`: either the success JSON body or an
`HTTPException` with a status code and detail. -/
inductive ApiResponse where
  | ok (message : List Char) (status : List Char) (record_id : List Char)
      (png_url : Option (List Char))
  | httpError (code : Nat) (detail : List Char)
deriving DecidableEq

/-- The observable outcome of one `/run-irs-ein` request: the response,
the session world afterwards, and whether `automation.cleanup()` was
called on the failure path. -/
structure RunEndpointResult where
  response : ApiResponse
  world : World
  cleanupCalled : Bool
deriving DecidableEq

/-- `run_irs_ein_endpoint` (source lines 435-471): bearer-token check; map
the payload (an exception is caught by the outer handler and surfaced as a
500 whose detail is the exception text); run the automation on a fresh
browser handle `hNew`; on success store the session and answer 200; on
failure clean the automation up and raise `HTTPException(500, message)` —
which, raised inside the `try`, is caught by the endpoint's own catch-all
and re-raised as `HTTPException(500, str(e))`, so the surfaced detail is
the failure message prefixed with "500: ". -/
def run_irs_ein_endpoint (authorization : Option (List Char)) (payload : Json)
    (env : RunEnv) (hNew : Nat) (w : World) : RunEndpointResult :=
  if authorization ≠ some (s2c "Bearer " ++ API_KEY) then
    { response := .httpError 401 (s2c "Invalid API key"), world := w,
      cleanupCalled := false }
  else
    match map_form_automation_data payload with
    | .error e => { response := .httpError 500 e, world := w, cleanupCalled := false }
    | .ok case_data =>
      let r := (run_automation env case_data).1
      if r.1 then
        { response := .ok
            (s2c "Process completed. Use /submit-decision with record_id: " ++
              case_data.record_id)
            (s2c "Completed") case_data.record_id r.2.2.2,
          world := store_session w case_data.record_id hNew,
          cleanupCalled := false }
      else
        { response := .httpError 500 (httpExcStr 500 r.2.1),
          world := { sessions := w.sessions, live := cleanup w.live hNew },
          cleanupCalled := true }

/-- The response of `/submit-decision`. -/
inductive DecisionResponse where
  | ok (record_id : List Char) (message : List Char) (status : List Char)
  | httpError (code : Nat) (detail : List Char)
deriving DecidableEq

/-- The observable outcome of one `/submit-decision` request. -/
structure DecisionResult where
  response : DecisionResponse
  world : World
deriving DecidableEq

/-- `submit_decision_endpoint` (source lines 473-489): 404 when no session
is stored under the id (nothing changes); otherwise answer with the
decision message and, in the `finally` block, remove (and clean up) the
session whatever the decision was. -/
def submit_decision_endpoint (record_id : List Char) (proceed : Bool) (w : World) :
    DecisionResult :=
  match get_session w record_id with
  | none => { response := .httpError 404 (s2c "Session not found"), world := w }
  | some _ =>
    { response := .ok record_id
        (if proceed then s2c "Form submitted successfully" else s2c "Process cancelled")
        (s2c "Completed"),
      world := remove_session w record_id }

theorem mapME_append {α β : Type} (f : α → Except Unit β) (l₁ l₂ : List α) :
    mapME f (l₁ ++ l₂) =
      match mapME f l₁ with
      | .error e => .error e
      | .ok ys₁ =>
        match mapME f l₂ with
        | .error e => .error e
        | .ok ys₂ => .ok (ys₁ ++ ys₂) := by
  induction l₁ with
  | nil =>
    simp only [List.nil_append, mapME]
    cases mapME f l₂ <;> rfl
  | cons x xs ih =>
    simp only [List.cons_append, mapME, List.append_eq, ih]
    cases f x <;> cases mapME f xs <;> cases mapME f l₂ <;> rfl

/-- The traversal of `search_parties` collects exactly the extraction
results of the matching keys, in traversal order. -/
theorem searchJson_eq_partyKeys (j : Json) :
    searchJson j = mapME partyNum (partyKeys j) := by
  induction j using searchJson.induct <;>
    simp_all [searchJson, partyKeys, jsonKeys, List.filter_cons, List.filter_append,
      mapME, mapME_append]

/-- Composing extraction and parsing over the matching keys agrees with
first collecting all tokens and then parsing them. -/
theorem mapMO_bind_eq (l : List (List Char)) :
    mapMO (fun k => (partyNum k).toOption.bind pyIntChars) l =
      match mapME partyNum l with
      | .error _ => none
      | .ok ts => mapMO pyIntChars ts := by
  induction l with
  | nil => rfl
  | cons k ks ih =>
    simp only [mapMO, mapME, ih]
    cases hpk : partyNum k with
    | error e => rfl
    | ok t =>
      simp only [Except.toOption, Option.bind_some]
      cases hpi : pyIntChars t with
      | none =>
        cases mapME partyNum ks <;> simp [mapMO, hpi]
      | some n =>
        cases mapME partyNum ks with
        | error e => simp [hpi]
        | ok ts => simp [mapMO, hpi]

theorem foldl_max_mem (x : Int) (xs : List Int) :
    xs.foldl max x ∈ x :: xs := by
  induction xs generalizing x with
  | nil => simp [List.foldl]
  | cons y ys ih =>
    rw [List.foldl_cons]
    rcases max_choice x y with hm | hm <;> rw [hm]
    · rcases List.mem_cons.mp (ih x) with h | h
      · simp [h]
      · simp [List.mem_cons, h]
    · have := ih y
      simp only [List.mem_cons] at this ⊢
      tauto

theorem foldl_max_le (x : Int) (xs : List Int) :
    x ≤ xs.foldl max x ∧ ∀ y ∈ xs, y ≤ xs.foldl max x := by
  induction xs generalizing x with
  | nil => simp
  | cons y ys ih =>
    rw [List.foldl_cons]
    obtain ⟨h1, h2⟩ := ih (max x y)
    refine ⟨le_trans (le_max_left x y) h1, ?_⟩
    intro z hz
    rcases List.mem_cons.mp hz with rfl | hz
    · exact le_trans (le_max_right x z) h1
    · exact h2 z hz

/-- A falsy document has no keys at all. -/
theorem pyTruthy_false_no_keys (j : Json) (h : pyTruthy j = false) :
    jsonKeys j = [] := by
  cases j with
  | arr l =>
    cases l with
    | nil => simp [jsonKeys]
    | cons x rest => simp [pyTruthy] at h
  | obj l =>
    cases l with
    | nil => simp [jsonKeys]
    | cons e rest => simp [pyTruthy] at h
  | null => simp [jsonKeys]
  | bool b => simp [jsonKeys]
  | num n => simp [jsonKeys]
  | str s => simp [jsonKeys]

/-- C1: `determine_llc_members` returns the maximum numeric suffix of the
dictionary keys (at any depth) whose lowercased text contains
"responsible party-"; it returns 2 when the document is absent or falsy,
when no such key exists, and when any suffix is missing or fails integer
parsing. -/
theorem determine_llc_members_spec (j : Json) :
    determine_llc_members none = 2 ∧
    (pyTruthy j = false → determine_llc_members (some j) = 2) ∧
    (partyKeys j = [] → determine_llc_members (some j) = 2) ∧
    (∀ ns : List Int, suffixValsOf j = some ns → ns ≠ [] →
      determine_llc_members (some j) ∈ ns ∧
      ∀ x ∈ ns, x ≤ determine_llc_members (some j)) ∧
    (suffixValsOf j = none → determine_llc_members (some j) = 2) := by
  refine ⟨rfl, ?_, ?_, ?_, ?_⟩
  · intro h
    simp [determine_llc_members, h]
  · intro h
    by_cases ht : pyTruthy j = false
    · simp [determine_llc_members, ht]
    · have hs : searchJson j = .ok [] := by
        rw [searchJson_eq_partyKeys, h]
        rfl
      simp only [determine_llc_members, if_neg ht, hs]
      rfl
  · intro ns hvals hne
    have ht : pyTruthy j = true := by
      by_contra hc
      have hf : pyTruthy j = false := by
        cases hpt : pyTruthy j
        · rfl
        · exact absurd hpt hc
      have : partyKeys j = [] := by
        simp [partyKeys, pyTruthy_false_no_keys j hf]
      rw [suffixValsOf, this] at hvals
      simp [mapMO] at hvals
      exact hne hvals
    rw [suffixValsOf, mapMO_bind_eq] at hvals
    cases hse : mapME partyNum (partyKeys j) with
    | error e => rw [hse] at hvals; simp at hvals
    | ok ts =>
      rw [hse] at hvals
      simp only at hvals
      have hsj : searchJson j = .ok ts := by
        rw [searchJson_eq_partyKeys, hse]
      cases ns with
      | nil => exact absurd rfl hne
      | cons n ns' =>
        have hdet : determine_llc_members (some j) = ns'.foldl max n := by
          simp only [determine_llc_members, hsj, hvals]
          simp [ht]
        rw [hdet]
        exact ⟨foldl_max_mem n ns', fun x hx => by
          rcases List.mem_cons.mp hx with rfl | hx
          · exact (foldl_max_le x ns').1
          · exact (foldl_max_le n ns').2 x hx⟩
  · intro hvals
    by_cases ht : pyTruthy j = false
    · simp [determine_llc_members, ht]
    · rw [suffixValsOf, mapMO_bind_eq] at hvals
      cases hse : mapME partyNum (partyKeys j) with
      | error e =>
        have hsj : searchJson j = .error e := by
          rw [searchJson_eq_partyKeys, hse]
        simp [determine_llc_members, if_neg ht, hsj]
      | ok ts =>
        rw [hse] at hvals
        simp only at hvals
        have hsj : searchJson j = .ok ts := by
          rw [searchJson_eq_partyKeys, hse]
        simp [determine_llc_members, if_neg ht, hsj, hvals]

/-- Witness for `determine_llc_members_spec` at a concrete document. -/
theorem determine_llc_members_spec_witness :
    determine_llc_members (some jC1) ∈ [(3 : Int), 7] ∧
    ∀ x ∈ [(3 : Int), 7], x ≤ determine_llc_members (some jC1) := by
  have h1 : partyKeys jC1 = [s2c "Responsible Party-3", s2c "responsible party-7 name"] := by
    simp [partyKeys, jsonKeys, jC1]
    decide
  have hvals : suffixValsOf jC1 = some [3, 7] := by
    rw [suffixValsOf, h1]
    simp +decide [mapMO, partyNum, splitRP, wsplit, lowerL, rpPat, s2c, pyIsSpace,
      pyIntChars, digRun, digsVal, Except.toOption]
  exact (determine_llc_members_spec jC1).2.2.2.1 [3, 7] hvals (by decide)

theorem digit?_digitChar (n : Nat) (h : n < 10) : digit? (digitChar n) = some n := by
  interval_cases n <;> decide

theorem digitChar_not_dash (n : Nat) (h : n < 10) : (digitChar n == '-') = false := by
  interval_cases n <;> decide

theorem digitChar_not_slash (n : Nat) (h : n < 10) : (digitChar n == '/') = false := by
  interval_cases n <;> decide

theorem pyIsSpace_digitChar (n : Nat) (h : n < 10) : pyIsSpace (digitChar n) = false := by
  interval_cases n <;> decide

theorem daysInMonth_le (y m : Nat) : daysInMonth y m ≤ 31 := by
  rw [daysInMonth]
  split
  · split <;> omega
  · split <;> omega

theorem matchY_pad4 (y : Nat) (h : y ≤ 9999) (rest : List Char) :
    matchY (pad4 y ++ rest) = [(y, rest)] := by
  have h1 : y / 1000 % 10 < 10 := Nat.mod_lt _ (by norm_num)
  have h2 : y / 100 % 10 < 10 := Nat.mod_lt _ (by norm_num)
  have h3 : y / 10 % 10 < 10 := Nat.mod_lt _ (by norm_num)
  have h4 : y % 10 < 10 := Nat.mod_lt _ (by norm_num)
  have hval : y / 1000 % 10 * 1000 + y / 100 % 10 * 100 + y / 10 % 10 * 10 + y % 10 = y := by
    omega
  simp only [pad4, List.cons_append, List.nil_append, matchY,
    digit?_digitChar _ h1, digit?_digitChar _ h2, digit?_digitChar _ h3,
    digit?_digitChar _ h4, hval]

theorem matchM_pad2 (m : Nat) (h1 : 1 ≤ m) (h2 : m ≤ 12) (rest : List Char) :
    matchM (pad2 m ++ rest) =
      (m, rest) :: (if 10 ≤ m then [(1, digitChar (m % 10) :: rest)] else []) := by
  interval_cases m <;> simp +decide [matchM, pad2, digitChar]

theorem matchD_pad2 (d : Nat) (h1 : 1 ≤ d) (h2 : d ≤ 31) (rest : List Char) :
    matchD (pad2 d ++ rest) =
      (d, rest) :: (if 10 ≤ d then [(d / 10, digitChar (d % 10) :: rest)] else []) := by
  interval_cases d <;> simp +decide [matchD, pad2, digitChar]

theorem litc_cons_self (c : Char) (rest : List Char) : litc c (c :: rest) = [rest] := by
  simp [litc]

theorem litc_digit_dash (n : Nat) (h : n < 10) (rest : List Char) :
    litc '-' (digitChar n :: rest) = [] := by
  simp [litc, digitChar_not_dash n h]

theorem litc_digit_slash (n : Nat) (h : n < 10) (rest : List Char) :
    litc '/' (digitChar n :: rest) = [] := by
  simp [litc, digitChar_not_slash n h]

/-- Every candidate of the month pattern consumes one or two characters. -/
theorem matchM_rests (a b : Char) (r : List Char) (p : Nat × List Char)
    (hp : p ∈ matchM (a :: b :: r)) : p.2 = r ∨ p.2 = b :: r := by
  simp only [matchM, List.mem_append] at hp
  rcases hp with (h | h) | h
  · split at h <;> simp at h <;> simp [h]
  · split at h <;> simp at h <;> simp [h]
  · split at h <;> simp at h <;> simp [h]

/-- A fully rendered `%Y<sep>%m<sep>%d` date has exactly one full parse. -/
theorem parsesYmd_render (sep : Char)
    (hs : ∀ n : Nat, n < 10 → ∀ rest : List Char, litc sep (digitChar n :: rest) = [])
    (y m d : Nat) (hy : y ≤ 9999) (hm1 : 1 ≤ m) (hm : m ≤ 12)
    (hd1 : 1 ≤ d) (hd : d ≤ 31) :
    parsesYmd sep (pad4 y ++ sep :: (pad2 m ++ sep :: pad2 d)) = [(y, m, d)] := by
  have hD := matchD_pad2 d hd1 hd []
  rw [List.append_nil] at hD
  rw [parsesYmd, matchY_pad4 y hy]
  simp only [List.flatMap_cons, List.flatMap_nil, List.append_nil]
  rw [litc_cons_self]
  simp only [List.flatMap_cons, List.flatMap_nil, List.append_nil]
  rw [matchM_pad2 m hm1 hm]
  simp only [List.flatMap_cons, List.flatMap_nil, List.append_nil]
  rw [litc_cons_self]
  simp only [List.flatMap_cons, List.flatMap_nil, List.append_nil]
  rw [hD]
  simp only [List.flatMap_cons, List.flatMap_nil, List.append_nil]
  rcases le_or_lt 10 m with h10m | h10m
  · rcases le_or_lt 10 d with h10d | h10d
    · simp only [if_pos h10m, if_pos h10d, List.flatMap_cons, List.flatMap_nil,
        List.append_nil, hs (m % 10) (Nat.mod_lt _ (by norm_num)),
        List.isEmpty_cons, List.isEmpty_nil]
      simp
    · simp only [if_pos h10m, if_neg (Nat.not_le.mpr h10d), List.flatMap_cons,
        List.flatMap_nil, List.append_nil, hs (m % 10) (Nat.mod_lt _ (by norm_num)),
        List.isEmpty_cons, List.isEmpty_nil]
      simp
  · rcases le_or_lt 10 d with h10d | h10d
    · simp only [if_neg (Nat.not_le.mpr h10m), if_pos h10d, List.flatMap_cons,
        List.flatMap_nil, List.append_nil, List.isEmpty_cons, List.isEmpty_nil]
      simp
    · simp only [if_neg (Nat.not_le.mpr h10m), if_neg (Nat.not_le.mpr h10d),
        List.flatMap_cons, List.flatMap_nil, List.append_nil,
        List.isEmpty_cons, List.isEmpty_nil]
      simp

/-- A fully rendered `%m/%d/%Y` date has exactly one full parse. -/
theorem parsesMdy_render (y m d : Nat) (hy : y ≤ 9999) (hm1 : 1 ≤ m) (hm : m ≤ 12)
    (hd1 : 1 ≤ d) (hd : d ≤ 31) :
    parsesMdy (pad2 m ++ '/' :: (pad2 d ++ '/' :: pad4 y)) = [(y, m, d)] := by
  have hY := matchY_pad4 y hy []
  rw [List.append_nil] at hY
  rw [parsesMdy, matchM_pad2 m hm1 hm]
  simp only [List.flatMap_cons, List.flatMap_nil, List.append_nil]
  rw [litc_cons_self]
  simp only [List.flatMap_cons, List.flatMap_nil, List.append_nil]
  rw [matchD_pad2 d hd1 hd]
  simp only [List.flatMap_cons, List.flatMap_nil, List.append_nil]
  rw [litc_cons_self]
  simp only [List.flatMap_cons, List.flatMap_nil, List.append_nil]
  rw [hY]
  simp only [List.flatMap_cons, List.flatMap_nil, List.append_nil]
  rcases le_or_lt 10 m with h10m | h10m
  · rcases le_or_lt 10 d with h10d | h10d
    · simp only [if_pos h10m, if_pos h10d, List.flatMap_cons, List.flatMap_nil,
        List.append_nil, litc_digit_slash (m % 10) (Nat.mod_lt _ (by norm_num)),
        litc_digit_slash (d % 10) (Nat.mod_lt _ (by norm_num))]
      simp
    · simp only [if_pos h10m, if_neg (Nat.not_le.mpr h10d), List.flatMap_cons,
        List.flatMap_nil, List.append_nil,
        litc_digit_slash (m % 10) (Nat.mod_lt _ (by norm_num))]
      simp
  · rcases le_or_lt 10 d with h10d | h10d
    · simp only [if_neg (Nat.not_le.mpr h10m), if_pos h10d, List.flatMap_cons,
        List.flatMap_nil, List.append_nil,
        litc_digit_slash (d % 10) (Nat.mod_lt _ (by norm_num))]
      simp
    · simp only [if_neg (Nat.not_le.mpr h10m), if_neg (Nat.not_le.mpr h10d),
        List.flatMap_cons, List.flatMap_nil, List.append_nil]
      simp

/-- The dash format has no parse on a slash-rendered `%m/%d/%Y` string. -/
theorem parsesYmd_dash_fail_mdy (y m d : Nat) (hm1 : 1 ≤ m) (hm : m ≤ 12)
    (hd1 : 1 ≤ d) (hd : d ≤ 31) :
    parsesYmd '-' (pad2 m ++ '/' :: (pad2 d ++ '/' :: pad4 y)) = [] := by
  have h1 : m / 10 % 10 < 10 := Nat.mod_lt _ (by norm_num)
  have h2 : m % 10 < 10 := Nat.mod_lt _ (by norm_num)
  have h3 : d / 10 % 10 < 10 := Nat.mod_lt _ (by norm_num)
  rw [parsesYmd]
  simp only [pad2, List.cons_append, List.nil_append, matchY,
    digit?_digitChar _ h1, digit?_digitChar _ h2]
  simp [digit?]

/-- The dash format has no parse on a slash-rendered `%Y/%m/%d` string. -/
theorem parsesYmd_dash_fail_ymd_slash (y m d : Nat) (hy : y ≤ 9999) :
    parsesYmd '-' (pad4 y ++ '/' :: (pad2 m ++ '/' :: pad2 d)) = [] := by
  rw [parsesYmd, matchY_pad4 y hy]
  simp only [List.flatMap_cons, List.flatMap_nil, List.append_nil]
  simp [litc]

/-- The `%m/%d/%Y` format has no parse on a `%Y/%m/%d`-rendered string:
every month candidate leaves a digit where the first slash is required. -/
theorem parsesMdy_fail_ymd_slash (y m d : Nat) (hy : y ≤ 9999) :
    parsesMdy (pad4 y ++ '/' :: (pad2 m ++ '/' :: pad2 d)) = [] := by
  have h2 : y / 100 % 10 < 10 := Nat.mod_lt _ (by norm_num)
  have h3 : y / 10 % 10 < 10 := Nat.mod_lt _ (by norm_num)
  rw [parsesMdy]
  apply List.bind_eq_nil.mpr
  intro p hp
  simp only [pad4, List.cons_append, List.nil_append] at hp
  rcases matchM_rests _ _ _ p hp with hr | hr <;> rw [hr]
  · rw [litc_digit_slash _ h3]
    rfl
  · rw [litc_digit_slash _ h2]
    rfl

theorem dropWhile_all_false (l : List Char) (hl : ∀ c ∈ l, pyIsSpace c = false) :
    l.dropWhile pyIsSpace = l := by
  cases l with
  | nil => rfl
  | cons c t =>
    rw [List.dropWhile_cons, hl c (by simp)]
    simp

theorem pyStrip_no_ws (s : List Char) (h : ∀ c ∈ s, pyIsSpace c = false) :
    pyStrip s = s := by
  rw [pyStrip, dropWhile_all_false s h, dropWhile_all_false s.reverse
    (fun c hc => h c (List.mem_reverse.mp hc)), List.reverse_reverse]

theorem pyIsSpace_digitChar_mod (k : Nat) : pyIsSpace (digitChar (k % 10)) = false :=
  pyIsSpace_digitChar _ (Nat.mod_lt _ (by norm_num))

theorem renderYmd_no_ws (sep : Char) (hsep : pyIsSpace sep = false) (y m d : Nat) :
    ∀ c ∈ pad4 y ++ sep :: (pad2 m ++ sep :: pad2 d), pyIsSpace c = false := by
  intro c hc
  simp only [pad4, pad2, List.mem_append, List.mem_cons, List.not_mem_nil, or_false,
    List.mem_singleton] at hc
  rcases hc with ((rfl | rfl | rfl | rfl) | rfl | (rfl | rfl) | rfl | (rfl | rfl))
  · exact pyIsSpace_digitChar_mod _
  · exact pyIsSpace_digitChar_mod _
  · exact pyIsSpace_digitChar_mod _
  · exact pyIsSpace_digitChar_mod _
  · exact hsep
  · exact pyIsSpace_digitChar_mod _
  · exact pyIsSpace_digitChar_mod _
  · exact hsep
  · exact pyIsSpace_digitChar_mod _
  · exact pyIsSpace_digitChar_mod _

theorem renderMdy_no_ws (y m d : Nat) :
    ∀ c ∈ pad2 m ++ '/' :: (pad2 d ++ '/' :: pad4 y), pyIsSpace c = false := by
  have hslash : pyIsSpace '/' = false := by decide
  intro c hc
  simp only [pad4, pad2, List.mem_append, List.mem_cons, List.not_mem_nil, or_false,
    List.mem_singleton] at hc
  rcases hc with ((rfl | rfl) | rfl | ((rfl | rfl) | rfl | (rfl | rfl | rfl | rfl)))
  · exact pyIsSpace_digitChar_mod _
  · exact pyIsSpace_digitChar_mod _
  · exact hslash
  · exact pyIsSpace_digitChar_mod _
  · exact pyIsSpace_digitChar_mod _
  · exact hslash
  · exact pyIsSpace_digitChar_mod _
  · exact pyIsSpace_digitChar_mod _
  · exact pyIsSpace_digitChar_mod _
  · exact pyIsSpace_digitChar_mod _

/-- C5: every calendar date rendered in any of the three supported formats
parses back to the same (month, year) pair; a string no format parses, the
empty string, and an absent value all yield (6, 2024). -/
theorem parse_formation_date_spec :
    (∀ y m d : Nat, 1 ≤ y → y ≤ 9999 → 1 ≤ m → m ≤ 12 → 1 ≤ d → d ≤ daysInMonth y m →
      parse_formation_date (some (renderYmdDash y m d)) = (m, y) ∧
      parse_formation_date (some (renderMdySlash y m d)) = (m, y) ∧
      parse_formation_date (some (renderYmdSlash y m d)) = (m, y)) ∧
    (∀ s : List Char,
      pyStrptimeYmdDash (pyStrip s) = none → pyStrptimeMdySlash (pyStrip s) = none →
      pyStrptimeYmdSlash (pyStrip s) = none → parse_formation_date (some s) = (6, 2024)) ∧
    parse_formation_date (some []) = (6, 2024) ∧
    parse_formation_date none = (6, 2024) := by
  refine ⟨?_, ?_, rfl, rfl⟩
  · intro y m d hy1 hy hm1 hm hd1 hdm
    have hd31 : d ≤ 31 := le_trans hdm (daysInMonth_le y m)
    have hvalid : 1 ≤ y ∧ 1 ≤ d ∧ d ≤ daysInMonth y m := ⟨hy1, hd1, hdm⟩
    refine ⟨?_, ?_, ?_⟩
    · have hne : renderYmdDash y m d ≠ [] := by simp [renderYmdDash, pad4]
      have hp : pyStrptimeYmdDash (renderYmdDash y m d) = some (m, y) := by
        rw [pyStrptimeYmdDash, renderYmdDash,
          parsesYmd_render '-' litc_digit_dash y m d hy hm1 hm hd1 hd31]
        simp [strptimeMY, hvalid]
      have hstrip : pyStrip (renderYmdDash y m d) = renderYmdDash y m d :=
        pyStrip_no_ws _ (by rw [renderYmdDash]; exact renderYmd_no_ws '-' (by decide) y m d)
      simp only [parse_formation_date, if_neg hne, hstrip, hp]
    · have hne : renderMdySlash y m d ≠ [] := by simp [renderMdySlash, pad2]
      have hfail : pyStrptimeYmdDash (renderMdySlash y m d) = none := by
        rw [pyStrptimeYmdDash, renderMdySlash,
          parsesYmd_dash_fail_mdy y m d hm1 hm hd1 hd31]
        rfl
      have hp : pyStrptimeMdySlash (renderMdySlash y m d) = some (m, y) := by
        rw [pyStrptimeMdySlash, renderMdySlash,
          parsesMdy_render y m d hy hm1 hm hd1 hd31]
        simp [strptimeMY, hvalid]
      have hstrip : pyStrip (renderMdySlash y m d) = renderMdySlash y m d :=
        pyStrip_no_ws _ (by rw [renderMdySlash]; exact renderMdy_no_ws y m d)
      simp only [parse_formation_date, if_neg hne, hstrip, hfail, hp]
    · have hne : renderYmdSlash y m d ≠ [] := by simp [renderYmdSlash, pad4]
      have hfail1 : pyStrptimeYmdDash (renderYmdSlash y m d) = none := by
        rw [pyStrptimeYmdDash, renderYmdSlash, parsesYmd_dash_fail_ymd_slash y m d hy]
        rfl
      have hfail2 : pyStrptimeMdySlash (renderYmdSlash y m d) = none := by
        rw [pyStrptimeMdySlash, renderYmdSlash, parsesMdy_fail_ymd_slash y m d hy]
        rfl
      have hp : pyStrptimeYmdSlash (renderYmdSlash y m d) = some (m, y) := by
        rw [pyStrptimeYmdSlash, renderYmdSlash,
          parsesYmd_render '/' litc_digit_slash y m d hy hm1 hm hd1 hd31]
        simp [strptimeMY, hvalid]
      have hstrip : pyStrip (renderYmdSlash y m d) = renderYmdSlash y m d :=
        pyStrip_no_ws _ (by rw [renderYmdSlash]; exact renderYmd_no_ws '/' (by decide) y m d)
      simp only [parse_formation_date, if_neg hne, hstrip, hfail1, hfail2, hp]
  · intro s h1 h2 h3
    by_cases hs : s = []
    · subst hs
      rfl
    · simp only [parse_formation_date, if_neg hs, h1, h2, h3]

/-- Witness for `parse_formation_date_spec` at concrete inputs. -/
theorem parse_formation_date_spec_witness :
    parse_formation_date (some (renderYmdDash 2024 6 24)) = (6, 2024) ∧
    parse_formation_date (some (renderMdySlash 2024 6 24)) = (6, 2024) ∧
    parse_formation_date (some (renderYmdSlash 2024 2 29)) = (2, 2024) ∧
    parse_formation_date (some (s2c "tomorrow")) = (6, 2024) := by
  refine ⟨?_, ?_, ?_, ?_⟩
  · exact (parse_formation_date_spec.1 2024 6 24 (by norm_num) (by norm_num)
      (by norm_num) (by norm_num) (by norm_num) (by decide)).1
  · exact (parse_formation_date_spec.1 2024 6 24 (by norm_num) (by norm_num)
      (by norm_num) (by norm_num) (by norm_num) (by decide)).2.1
  · exact (parse_formation_date_spec.1 2024 2 29 (by norm_num) (by norm_num)
      (by norm_num) (by norm_num) (by norm_num) (by decide)).2.2
  · exact parse_formation_date_spec.2.1 (s2c "tomorrow") (by decide) (by decide) (by decide)

/-- C6: for an input whose digit-stripped form has exactly 10 digits,
`format_phone` returns parts of lengths 3, 3, 4 concatenating to the
stripped digits; for any other stripped length, and for empty or absent
input, it returns the split of the fallback number "2812173123". -/
theorem format_phone_spec :
    (∀ s : List Char, (digitsOf s).length = 10 →
      (format_phone (some s)).1.length = 3 ∧
      (format_phone (some s)).2.1.length = 3 ∧
      (format_phone (some s)).2.2.length = 4 ∧
      (format_phone (some s)).1 ++ (format_phone (some s)).2.1 ++ (format_phone (some s)).2.2
        = digitsOf s) ∧
    (∀ s : List Char, (digitsOf s).length ≠ 10 →
      format_phone (some s) = (s2c "281", s2c "217", s2c "3123")) ∧
    format_phone none = (s2c "281", s2c "217", s2c "3123") := by
  refine ⟨?_, ?_, ?_⟩
  · intro s hlen
    have hne : s ≠ [] := by
      intro h
      rw [h] at hlen
      simp [digitsOf] at hlen
    simp only [format_phone, if_neg hne, hlen]
    simp only [ne_eq, not_true_eq_false, if_false, ite_false]
    refine ⟨?_, ?_, ?_, ?_⟩
    · simp [List.length_take, hlen]
    · simp [List.length_take, List.length_drop, hlen]
    · simp [List.length_take, List.length_drop, hlen]
    · have h1 := (List.take_add (digitsOf s) 3 3).symm
      norm_num at h1
      have h2 : ((digitsOf s).drop 6).take 4 = (digitsOf s).drop 6 := by
        apply List.take_of_length_le
        simp [List.length_drop, hlen]
      rw [h1, h2, List.take_append_drop]
  · intro s hlen
    by_cases hne : s = []
    · subst hne
      rfl
    · simp only [format_phone, if_neg hne, if_pos hlen]
      rfl
  · rfl

/-- Witness for `format_phone_spec` at concrete inputs. -/
theorem format_phone_spec_witness :
    ((format_phone (some (s2c "(281) 217-3123"))).1 = s2c "281" ∧
      (format_phone (some (s2c "(281) 217-3123"))).1 ++
        (format_phone (some (s2c "(281) 217-3123"))).2.1 ++
        (format_phone (some (s2c "(281) 217-3123"))).2.2 = digitsOf (s2c "(281) 217-3123")) ∧
    format_phone (some (s2c "12345")) = (s2c "281", s2c "217", s2c "3123") := by
  refine ⟨⟨by decide, ?_⟩, ?_⟩
  · exact (format_phone_spec.1 (s2c "(281) 217-3123") (by decide)).2.2.2
  · exact format_phone_spec.2.1 (s2c "12345") (by decide)

/-- `List.lookup` finds the value of any pair present in an association list
whose keys are pairwise distinct. -/
theorem lookup_of_mem_of_nodup (l : List (List Char × List Char)) (k v : List Char)
    (hmem : (k, v) ∈ l) (hnd : (l.map Prod.fst).Nodup) : List.lookup k l = some v := by
  induction l with
  | nil => simp at hmem
  | cons hd tl ih =>
    obtain ⟨k', v'⟩ := hd
    simp only [List.map_cons, List.nodup_cons] at hnd
    rcases List.mem_cons.mp hmem with heq | htl
    · obtain ⟨rfl, rfl⟩ := Prod.mk.injEq .. ▸ heq
      simp [List.lookup]
    · have hk : k ≠ k' := by
        intro h
        subst h
        exact hnd.1 (List.mem_map.mpr ⟨(k, v), htl, rfl⟩)
      simp only [List.lookup, beq_iff_eq, if_neg hk]
      have : (k == k') = false := beq_eq_false_iff_ne.mpr hk
      rw [this]
      exact ih htl hnd.2

/-- C4: inputs whose uppercased-and-stripped form is a key of
`STATE_MAPPING` map to that key's two-letter code; an unmapped 2-character
cleaned form is returned unchanged; every other input (unmapped cleaned form
of another length, empty, or absent) yields the fallback "TX". -/
theorem normalize_state_spec :
    (∀ (s k v : List Char), (k, v) ∈ STATE_MAPPING → pyStrip (upperL s) = k →
      normalize_state (some s) = v) ∧
    (∀ s : List Char, List.lookup (pyStrip (upperL s)) STATE_MAPPING = none →
      (pyStrip (upperL s)).length = 2 → normalize_state (some s) = pyStrip (upperL s)) ∧
    (∀ s : List Char, List.lookup (pyStrip (upperL s)) STATE_MAPPING = none →
      (pyStrip (upperL s)).length ≠ 2 → normalize_state (some s) = s2c "TX") ∧
    normalize_state none = s2c "TX" := by
  have hkeys : ∀ p ∈ STATE_MAPPING, p.1 ≠ [] := by decide
  have hnd : (STATE_MAPPING.map Prod.fst).Nodup := by decide
  refine ⟨?_, ?_, ?_, rfl⟩
  · intro s k v hmem heq
    have hs : s ≠ [] := by
      intro h
      subst h
      exact hkeys (k, v) hmem (by simpa [pyStrip, upperL] using heq.symm)
    have hl : List.lookup (pyStrip (upperL s)) STATE_MAPPING = some v := by
      rw [heq]
      exact lookup_of_mem_of_nodup _ _ _ hmem hnd
    simp only [normalize_state, if_neg hs, hl]
  · intro s hlook hlen
    have hs : s ≠ [] := by
      intro h
      subst h
      simp [pyStrip, upperL] at hlen
    simp only [normalize_state, if_neg hs, hlook, if_pos hlen]
  · intro s hlook hlen
    by_cases hs : s = []
    · subst hs
      rfl
    · simp only [normalize_state, if_neg hs, hlook, if_neg hlen]

/-- Witness for `normalize_state_spec` at concrete inputs. -/
theorem normalize_state_spec_witness :
    normalize_state (some (s2c "  new york ")) = s2c "NY" ∧
    normalize_state (some (s2c "zz")) = s2c "ZZ" ∧
    normalize_state (some (s2c "Atlantis")) = s2c "TX" := by
  refine ⟨?_, ?_, ?_⟩
  · exact normalize_state_spec.1 (s2c "  new york ") (s2c "NEW YORK") (s2c "NY")
      (by decide) (by decide)
  · have h := normalize_state_spec.2.1 (s2c "zz") (by decide) (by decide)
    simpa using h
  · exact normalize_state_spec.2.2.1 (s2c "Atlantis") (by decide) (by decide)

theorem except_bind_ok {α β : Type} (x : Except (List Char) α)
    (f : α → Except (List Char) β) (b : β) (h : (x >>= f) = .ok b) :
    ∃ a, x = .ok a ∧ f a = .ok b := by
  cases x with
  | error e => simp [Bind.bind, Except.bind] at h
  | ok a => exact ⟨a, rfl, by simpa [Bind.bind, Except.bind] using h⟩

/-- Any value found by `List.lookup` is one of the stored values. -/
theorem lookup_snd_mem (l : List (List Char × List Char)) (k v : List Char)
    (h : List.lookup k l = some v) : v ∈ l.map Prod.snd := by
  induction l with
  | nil => simp [List.lookup] at h
  | cons p t ih =>
    obtain ⟨pk, pv⟩ := p
    simp only [List.lookup] at h
    cases hbeq : (k == pk) with
    | true =>
      rw [hbeq] at h
      simp only [Option.some.injEq] at h
      simp [h]
    | false =>
      rw [hbeq] at h
      simp [ih h]

/-- The entity-type radio identifier is never the multi-member radio id. -/
theorem entity_value_ne_radio_n (x : List Char) :
    (List.lookup x ENTITY_TYPE_MAPPING).getD (s2c "limited") ≠ s2c "radio_n" := by
  cases h : List.lookup x ENTITY_TYPE_MAPPING with
  | none =>
    simp only [Option.getD_none]
    decide
  | some v =>
    have hv := lookup_snd_mem _ _ _ h
    have hall : ∀ w ∈ ENTITY_TYPE_MAPPING.map Prod.snd, w ≠ s2c "radio_n" := by decide
    simpa using hall v hv

/-- C3: in a run that reaches the member-count page, the multi-member
radio selection followed by a Continue click appears in the action
sequence exactly when the computed member count equals 2; a record with
entity type "LLC" and no summary has member count 2 and takes the branch. -/
theorem run_automation_multi_member_spec (env : RunEnv) (data : CaseData)
    (h1 : env.initBrowserExc = none) (h2 : env.navigateExc = none) :
    ((∃ pre post, (run_automation env data).2 =
        pre ++ UIAction.radio (s2c "radio_n") :: UIAction.click (s2c "Continue") :: post) ↔
      determine_llc_members data.json_summary = 2) ∧
    (data.entity_type = some (s2c "LLC") → data.json_summary = none →
      determine_llc_members data.json_summary = 2 ∧
      ∃ pre post, (run_automation env data).2 =
        pre ++ UIAction.radio (s2c "radio_n") :: UIAction.click (s2c "Continue") :: post) := by
  have htrace : (run_automation env data).2 =
      [UIAction.click (s2c "Begin Application"),
       UIAction.radio ((List.lookup (pyOrStr data.entity_type (s2c "LLC"))
         ENTITY_TYPE_MAPPING).getD (s2c "limited")),
       UIAction.click (s2c "Continue"),
       UIAction.click (s2c "Continue"),
       UIAction.fillNum (s2c "numbermem") (determine_llc_members data.json_summary),
       UIAction.dropdown (s2c "state")
         (normalize_state (pyOrOpt data.entity_state data.entity_state_record_state)),
       UIAction.click (s2c "Continue")] ++
      (if determine_llc_members data.json_summary = 2 then
        [UIAction.radio (s2c "radio_n"), UIAction.click (s2c "Continue")]
       else []) ++
      [UIAction.capture (s2c "print_" ++ data.record_id ++ s2c "_" ++ env.timestamp ++
        s2c ".png")] := by
    simp only [run_automation, h1, h2]
  have hiff : (∃ pre post, (run_automation env data).2 =
      pre ++ UIAction.radio (s2c "radio_n") :: UIAction.click (s2c "Continue") :: post) ↔
      determine_llc_members data.json_summary = 2 := by
    constructor
    · rintro ⟨pre, post, heq⟩
      by_contra hne
      rw [htrace, if_neg hne] at heq
      have hmem : UIAction.radio (s2c "radio_n") ∈
          ([UIAction.click (s2c "Begin Application"),
            UIAction.radio ((List.lookup (pyOrStr data.entity_type (s2c "LLC"))
              ENTITY_TYPE_MAPPING).getD (s2c "limited")),
            UIAction.click (s2c "Continue"),
            UIAction.click (s2c "Continue"),
            UIAction.fillNum (s2c "numbermem") (determine_llc_members data.json_summary),
            UIAction.dropdown (s2c "state")
              (normalize_state (pyOrOpt data.entity_state data.entity_state_record_state)),
            UIAction.click (s2c "Continue")] ++ [] ++
           [UIAction.capture (s2c "print_" ++ data.record_id ++ s2c "_" ++ env.timestamp ++
             s2c ".png")]) := by
        rw [heq]
        simp [List.mem_append]
      simp only [List.append_nil, List.mem_append, List.mem_cons, List.mem_singleton,
        List.not_mem_nil, or_false] at hmem
      rcases hmem with hmem | hmem
      · rcases hmem with h | h | h | h | h | h | h <;> simp_all
        exact entity_value_ne_radio_n _ h.symm
      · simp at hmem
    · intro hllc
      refine ⟨[UIAction.click (s2c "Begin Application"),
        UIAction.radio ((List.lookup (pyOrStr data.entity_type (s2c "LLC"))
          ENTITY_TYPE_MAPPING).getD (s2c "limited")),
        UIAction.click (s2c "Continue"),
        UIAction.click (s2c "Continue"),
        UIAction.fillNum (s2c "numbermem") (determine_llc_members data.json_summary),
        UIAction.dropdown (s2c "state")
          (normalize_state (pyOrOpt data.entity_state data.entity_state_record_state)),
        UIAction.click (s2c "Continue")],
        [UIAction.capture (s2c "print_" ++ data.record_id ++ s2c "_" ++ env.timestamp ++
          s2c ".png")], ?_⟩
      rw [htrace, if_pos hllc]
      simp
  refine ⟨hiff, fun _ hjs => ?_⟩
  have h2eq : determine_llc_members data.json_summary = 2 := by
    rw [hjs]
    rfl
  exact ⟨h2eq, hiff.mpr h2eq⟩

/-- Witness for `run_automation_multi_member_spec`: a plain run of an LLC
record with no summary takes the multi-member branch. -/
theorem run_automation_multi_member_spec_witness :
    determine_llc_members ({ record_id := s2c "temp_record_id",
                             entity_type := some (s2c "LLC") } : CaseData).json_summary = 2 ∧
    ∃ pre post,
      (run_automation {} { record_id := s2c "temp_record_id",
                           entity_type := some (s2c "LLC") }).2 =
      pre ++ UIAction.radio (s2c "radio_n") :: UIAction.click (s2c "Continue") :: post :=
  (run_automation_multi_member_spec {} _ rfl rfl).2 rfl rfl

/-- C2 counterexample: at a concrete run failing with message "boom", the
endpoint's 500 detail is "500: boom", not the failure message itself: the
inner `HTTPException(500, message)` raised inside the `try` is caught by
the endpoint's own catch-all and re-wrapped via `str(e)`. -/
theorem run_endpoint_detail_counterexample :
    (run_automation { initBrowserExc := some (s2c "boom") }
      { record_id := s2c "temp_record_id" }).1.2.1 = s2c "boom" ∧
    (run_irs_ein_endpoint (some (s2c "Bearer " ++ API_KEY)) (Json.obj [])
      { initBrowserExc := some (s2c "boom") } 7
      { sessions := [], live := [7] }).response =
      ApiResponse.httpError 500 (s2c "500: boom") ∧
    s2c "500: boom" ≠ s2c "boom" := by
  refine ⟨rfl, ?_, by decide⟩
  decide

/-- C2 (amended): `run_automation` converts an exception at either raising
step into the failure tuple `(False, message, None, None)` instead of
letting it escape; and on a reported failure the endpoint cleans the
automation up, leaves the session map unchanged, and answers 500 whose
detail is the failure message prefixed with "500: " (the inner 500 is
re-wrapped by the endpoint's catch-all via `str`). -/
theorem run_automation_no_escape_spec :
    (∀ (env : RunEnv) (data : CaseData) (e : List Char),
      env.initBrowserExc = some e →
      (run_automation env data).1 = (false, e, none, none)) ∧
    (∀ (env : RunEnv) (data : CaseData) (e : List Char),
      env.initBrowserExc = none → env.navigateExc = some e →
      (run_automation env data).1 = (false, e, none, none)) ∧
    (∀ (auth : Option (List Char)) (payload : Json) (env : RunEnv) (hNew : Nat)
        (w : World) (cd : CaseData),
      auth = some (s2c "Bearer " ++ API_KEY) →
      map_form_automation_data payload = .ok cd →
      (run_automation env cd).1.1 = false →
      (run_irs_ein_endpoint auth payload env hNew w).cleanupCalled = true ∧
      (run_irs_ein_endpoint auth payload env hNew w).world.sessions = w.sessions ∧
      (run_irs_ein_endpoint auth payload env hNew w).response =
        ApiResponse.httpError 500 (httpExcStr 500 (run_automation env cd).1.2.1)) := by
  refine ⟨?_, ?_, ?_⟩
  · intro env data e h
    simp [run_automation, h]
  · intro env data e h1 h2
    simp [run_automation, h1, h2]
  · intro auth payload env hNew w cd hauth hmap hfail
    subst hauth
    have hne : ¬ (some (s2c "Bearer " ++ API_KEY) ≠ some (s2c "Bearer " ++ API_KEY)) := by
      simp
    simp only [run_irs_ein_endpoint, if_neg hne, hmap]
    simp [hfail]

/-- Witness for `run_automation_no_escape_spec` at a concrete failing run. -/
theorem run_automation_no_escape_spec_witness :
    (run_automation { initBrowserExc := some (s2c "boom") }
      { record_id := s2c "r" }).1 = (false, s2c "boom", none, none) ∧
    (run_automation { navigateExc := some (s2c "nav down") }
      { record_id := s2c "r" }).1 = (false, s2c "nav down", none, none) ∧
    (run_irs_ein_endpoint (some (s2c "Bearer " ++ API_KEY)) (Json.obj [])
      { initBrowserExc := some (s2c "boom") } 7
      { sessions := [], live := [7] }).cleanupCalled = true ∧
    (run_irs_ein_endpoint (some (s2c "Bearer " ++ API_KEY)) (Json.obj [])
      { initBrowserExc := some (s2c "boom") } 7
      { sessions := [], live := [7] }).world.sessions = [] ∧
    (run_irs_ein_endpoint (some (s2c "Bearer " ++ API_KEY)) (Json.obj [])
      { initBrowserExc := some (s2c "boom") } 7
      { sessions := [], live := [7] }).response =
      ApiResponse.httpError 500 (httpExcStr 500 (s2c "boom")) := by
  refine ⟨run_automation_no_escape_spec.1 _ _ _ rfl,
    run_automation_no_escape_spec.2.1 _ _ _ rfl rfl, ?_⟩
  have h := run_automation_no_escape_spec.2.2 (some (s2c "Bearer " ++ API_KEY))
    (Json.obj []) { initBrowserExc := some (s2c "boom") } 7
    { sessions := [], live := [7] }
    { record_id := s2c "temp_record_id" } rfl rfl rfl
  exact ⟨h.1, h.2.1, h.2.2⟩

/-- C8: a failure inside the capture pipeline is reported as
`(None, None)` rather than propagated, and a run whose form-fill steps
raise nothing still returns success True with both capture results None. -/
theorem capture_failure_spec :
    (∀ (env : RunEnv) (e : List Char) (filename : List Char),
      env.captureExc = some e → capture_page_as_png env filename = (none, none)) ∧
    (∀ (env : RunEnv) (data : CaseData) (e : List Char),
      env.initBrowserExc = none → env.navigateExc = none → env.captureExc = some e →
      (run_automation env data).1 = (true, msgFormCompleted, none, none)) := by
  constructor
  · intro env e filename h
    simp [capture_page_as_png, h]
  · intro env data e h1 h2 hc
    simp [run_automation, h1, h2, capture_page_as_png, hc]

/-- Witness for `capture_failure_spec` at a concrete run. -/
theorem capture_failure_spec_witness :
    capture_page_as_png { captureExc := some (s2c "no pdf") } (s2c "print_r_1.png") =
      (none, none) ∧
    (run_automation { captureExc := some (s2c "no pdf") }
      { record_id := s2c "r" }).1 = (true, msgFormCompleted, none, none) :=
  ⟨capture_failure_spec.1 _ _ (s2c "print_r_1.png") rfl,
   capture_failure_spec.2 _ { record_id := s2c "r" } _ rfl rfl rfl⟩

/-- A key never survives filtering that key out. -/
theorem lookup_filter_ne (l : List (List Char × Nat)) (k : List Char) :
    List.lookup k (l.filter (fun p => p.1 != k)) = none := by
  induction l with
  | nil => rfl
  | cons q t ih =>
    obtain ⟨qk, qv⟩ := q
    rw [List.filter_cons]
    by_cases hq : qk = k
    · subst hq
      rw [if_neg (by simp)]
      exact ih
    · rw [if_pos (by simpa using hq)]
      simp only [List.lookup]
      have hbeq : (k == qk) = false := beq_eq_false_iff_ne.mpr (fun h => hq h.symm)
      rw [hbeq]
      exact ih

/-- C7: `/submit-decision` answers 404 and changes nothing when no session
is stored under the record id; with a stored session it answers
`{record_id, message, status: Completed}` and the session is gone
afterwards regardless of the decision. -/
theorem submit_decision_spec (w : World) (rid : List Char) (proceed : Bool) :
    (get_session w rid = none →
      (submit_decision_endpoint rid proceed w).response =
        DecisionResponse.httpError 404 (s2c "Session not found") ∧
      (submit_decision_endpoint rid proceed w).world = w) ∧
    (∀ h, get_session w rid = some h →
      (submit_decision_endpoint rid proceed w).response =
        DecisionResponse.ok rid
          (if proceed then s2c "Form submitted successfully" else s2c "Process cancelled")
          (s2c "Completed") ∧
      get_session (submit_decision_endpoint rid proceed w).world rid = none) := by
  constructor
  · intro h
    constructor <;> simp [submit_decision_endpoint, h]
  · intro h hs
    constructor
    · simp [submit_decision_endpoint, hs]
    · simp only [submit_decision_endpoint, hs]
      simp only [get_session] at hs
      simp only [get_session, remove_session, hs]
      exact lookup_filter_ne w.sessions rid

/-- Witness for `submit_decision_spec` at concrete stores. -/
theorem submit_decision_spec_witness :
    (submit_decision_endpoint (s2c "nope") true { sessions := [], live := [] }).response =
      DecisionResponse.httpError 404 (s2c "Session not found") ∧
    get_session (submit_decision_endpoint (s2c "a") false
      { sessions := [(s2c "a", 3)], live := [3] }).world (s2c "a") = none := by
  refine ⟨((submit_decision_spec { sessions := [], live := [] } (s2c "nope") true).1
    rfl).1, ?_⟩
  exact ((submit_decision_spec { sessions := [(s2c "a", 3)], live := [3] }
    (s2c "a") false).2 3 rfl).2

/-- A key absent from an association list matches no stored pair. -/
theorem lookup_none_keys (l : List (List Char × Nat)) (k : List Char)
    (h : List.lookup k l = none) : ∀ p ∈ l, p.1 ≠ k := by
  induction l with
  | nil => simp
  | cons q t ih =>
    obtain ⟨qk, qv⟩ := q
    simp only [List.lookup] at h
    cases hbeq : (k == qk) with
    | true =>
      rw [hbeq] at h
      simp at h
    | false =>
      rw [hbeq] at h
      intro p hp
      rcases List.mem_cons.mp hp with rfl | hp
      · exact fun hqk => (beq_eq_false_iff_ne.mp hbeq) hqk.symm
      · exact ih h p hp

/-- Replacing the entry of a present key makes the new value visible. -/
theorem lookup_map_replace (l : List (List Char × Nat)) (k : List Char) (v : Nat)
    (h : (List.lookup k l).isSome) :
    List.lookup k (l.map (fun p => if p.1 = k then (k, v) else p)) = some v := by
  induction l with
  | nil => simp [List.lookup] at h
  | cons q t ih =>
    obtain ⟨qk, qv⟩ := q
    by_cases hq : qk = k
    · subst hq
      simp only [List.map_cons, if_pos rfl]
      simp [List.lookup]
    · have hbeq : (k == qk) = false := beq_eq_false_iff_ne.mpr (fun hh => hq hh.symm)
      have hmap : List.map (fun p => if p.1 = k then (k, v) else p) ((qk, qv) :: t) =
          (qk, qv) :: List.map (fun p => if p.1 = k then (k, v) else p) t := by
        simp [hq]
      rw [hmap]
      simp only [List.lookup, hbeq]
      apply ih
      simpa [List.lookup, hbeq] using h

/-- Appending a fresh entry makes it visible when the key was absent. -/
theorem lookup_append_single (l : List (List Char × Nat)) (k : List Char) (v : Nat)
    (h : List.lookup k l = none) :
    List.lookup k (l ++ [(k, v)]) = some v := by
  induction l with
  | nil => simp [List.lookup]
  | cons q t ih =>
    obtain ⟨qk, qv⟩ := q
    simp only [List.lookup] at h
    cases hbeq : (k == qk) with
    | true =>
      rw [hbeq] at h
      simp at h
    | false =>
      rw [hbeq] at h
      simp only [List.cons_append, List.lookup, hbeq]
      exact ih h

/-- Dict assignment makes the assigned value visible under its key. -/
theorem lookup_storeAssign_self (l : List (List Char × Nat)) (k : List Char) (v : Nat) :
    List.lookup k (storeAssign l k v) = some v := by
  rw [storeAssign]
  by_cases hl : (List.lookup k l).isSome
  · rw [if_pos hl]
    exact lookup_map_replace l k v hl
  · rw [if_neg hl]
    exact lookup_append_single l k v (Option.not_isSome_iff_eq_none.mp hl)

/-- Every pair after a dict assignment is the new pair or an old pair
under a different key. -/
theorem storeAssign_mem (l : List (List Char × Nat)) (k : List Char) (v : Nat)
    (p : List Char × Nat) (hp : p ∈ storeAssign l k v) :
    p = (k, v) ∨ (p ∈ l ∧ p.1 ≠ k) := by
  rw [storeAssign] at hp
  by_cases hl : (List.lookup k l).isSome
  · rw [if_pos hl] at hp
    obtain ⟨q, hq, hfq⟩ := List.mem_map.mp hp
    by_cases hqk : q.1 = k
    · left
      rw [← hfq, if_pos hqk]
    · right
      rw [← hfq, if_neg hqk]
      exact ⟨hq, hqk⟩
  · rw [if_neg hl] at hp
    have hnone : List.lookup k l = none := Option.not_isSome_iff_eq_none.mp hl
    rcases List.mem_append.mp hp with hmem | hmem
    · exact Or.inr ⟨hmem, lookup_none_keys l k hnone p hmem⟩
    · left
      simpa using hmem

/-- C9 counterexample: storing over an id that is already present (here
the constant record id, with a live stored browser) leaves the previous
automation's browser live while the store no longer references it — a
live browser resource outside the store, which the claim says never
happens. -/
theorem store_session_overwrite_leak :
    get_session { sessions := [(s2c "temp_record_id", 0)], live := [0, 1] }
        (s2c "temp_record_id") = some 0 ∧
    0 ∈ ({ sessions := [(s2c "temp_record_id", 0)], live := [0, 1] } : World).live ∧
    0 ∈ (store_session { sessions := [(s2c "temp_record_id", 0)], live := [0, 1] }
        (s2c "temp_record_id") 1).live ∧
    ∀ p ∈ (store_session { sessions := [(s2c "temp_record_id", 0)], live := [0, 1] }
        (s2c "temp_record_id") 1).sessions, p.2 ≠ 0 := by
  decide

/-- C9 (amended): `remove_session` releases the stored automation's
browser whenever the id is present, leaves the id unmapped, and is an
idempotent no-op when the id is absent; but `store_session` on a present
id overwrites without any release, so the previous automation's browser
stays live while no longer stored — a leak the original invariant claim
rules out. -/
theorem session_manager_spec (w : World) (rid : List Char) :
    (∀ h, get_session w rid = some h →
      (remove_session w rid).live = cleanup w.live h ∧
      get_session (remove_session w rid) rid = none) ∧
    (get_session w rid = none → remove_session w rid = w) ∧
    remove_session (remove_session w rid) rid = remove_session w rid ∧
    (∀ hOld hNew : Nat, get_session w rid = some hOld → hOld ∈ w.live → hOld ≠ hNew →
      (∀ p ∈ w.sessions, p.2 = hOld → p.1 = rid) →
      get_session (store_session w rid hNew) rid = some hNew ∧
      (store_session w rid hNew).live = w.live ∧
      hOld ∈ (store_session w rid hNew).live ∧
      ∀ p ∈ (store_session w rid hNew).sessions, p.2 ≠ hOld) := by
  refine ⟨?_, ?_, ?_, ?_⟩
  · intro h hs
    simp only [get_session] at hs
    rw [remove_session, hs]
    refine ⟨rfl, ?_⟩
    simp only [get_session]
    exact lookup_filter_ne w.sessions rid
  · intro hs
    simp only [get_session] at hs
    rw [remove_session, hs]
  · cases hs : List.lookup rid w.sessions with
    | some h =>
      have h1 : remove_session w rid =
          { sessions := w.sessions.filter (fun p => p.1 != rid),
            live := cleanup w.live h } := by
        rw [remove_session, hs]
      rw [h1]
      rw [remove_session]
      simp only [lookup_filter_ne]
    | none =>
      have h1 : remove_session w rid = w := by
        rw [remove_session, hs]
      rw [h1]
      exact h1
  · intro hOld hNew hs hlive hne honly
    refine ⟨?_, rfl, hlive, ?_⟩
    · simp only [get_session, store_session]
      exact lookup_storeAssign_self w.sessions rid hNew
    · intro p hp
      rcases storeAssign_mem w.sessions rid hNew p hp with rfl | ⟨hpl, hpk⟩
      · simpa using Ne.symm hne
      · intro hp2
        exact hpk (honly p hpl hp2)

/-- Witness for `session_manager_spec` at a concrete world. -/
theorem session_manager_spec_witness :
    (remove_session { sessions := [(s2c "a", 3)], live := [3, 4] } (s2c "a")).live =
      cleanup [3, 4] 3 ∧
    get_session (remove_session { sessions := [(s2c "a", 3)], live := [3, 4] }
      (s2c "a")) (s2c "a") = none ∧
    remove_session { sessions := [], live := [9] } (s2c "a") =
      { sessions := [], live := [9] } ∧
    0 ∈ (store_session { sessions := [(s2c "a", 0)], live := [0, 1] } (s2c "a") 1).live ∧
    ∀ p ∈ (store_session { sessions := [(s2c "a", 0)], live := [0, 1] }
      (s2c "a") 1).sessions, p.2 ≠ 0 := by
  have h1 := (session_manager_spec { sessions := [(s2c "a", 3)], live := [3, 4] }
    (s2c "a")).1 3 rfl
  have h2 := (session_manager_spec { sessions := [], live := [9] } (s2c "a")).2.1 rfl
  have h4 := (session_manager_spec { sessions := [(s2c "a", 0)], live := [0, 1] }
    (s2c "a")).2.2.2 0 1 rfl (by decide) (by decide) (by decide)
  exact ⟨h1.1, h1.2, h2, h4.2.2.1, h4.2.2.2⟩

/-- C10 counterexample: a payload whose `Form_Automation__c` member is not
an object makes `map_form_automation_data` raise `AttributeError` instead
of returning a record, so the mapping does not return a record for every
inbound payload. -/
theorem map_form_automation_data_counterexample :
    map_form_automation_data (Json.obj [(s2c "Form_Automation__c", Json.num 5)]) =
      Except.error (s2c "AttributeError") := rfl

/-- C10 (amended): whenever `map_form_automation_data` returns a record
(it raises on payloads whose accessed members are present but not
objects), the record id is the constant "temp_record_id"; consequently a
successful run stores its session under that constant id and the response
carries it. -/
theorem map_record_id_spec :
    (∀ (payload : Json) (cd : CaseData), map_form_automation_data payload = .ok cd →
      cd.record_id = s2c "temp_record_id") ∧
    (∀ (auth : Option (List Char)) (payload : Json) (env : RunEnv) (hNew : Nat)
        (w : World) (cd : CaseData),
      auth = some (s2c "Bearer " ++ API_KEY) →
      map_form_automation_data payload = .ok cd →
      (run_automation env cd).1.1 = true →
      (run_irs_ein_endpoint auth payload env hNew w).world =
        store_session w (s2c "temp_record_id") hNew ∧
      (run_irs_ein_endpoint auth payload env hNew w).response =
        ApiResponse.ok
          (s2c "Process completed. Use /submit-decision with record_id: " ++
            s2c "temp_record_id")
          (s2c "Completed") (s2c "temp_record_id")
          (run_automation env cd).1.2.2.2) := by
  have hrec : ∀ (payload : Json) (cd : CaseData),
      map_form_automation_data payload = .ok cd →
      cd.record_id = s2c "temp_record_id" := by
    intro payload cd h
    rw [map_form_automation_data] at h
    repeat obtain ⟨_, _, h⟩ := except_bind_ok _ _ _ h
    simp only [pure, Except.pure, Except.ok.injEq] at h
    subst h
    rfl
  refine ⟨hrec, ?_⟩
  intro auth payload env hNew w cd hauth hmap hsucc
  subst hauth
  have hne : ¬ (some (s2c "Bearer " ++ API_KEY) ≠ some (s2c "Bearer " ++ API_KEY)) := by
    simp
  have hcd := hrec payload cd hmap
  simp only [run_irs_ein_endpoint, if_neg hne, hmap, hsucc, if_true, hcd]
  simp

/-- Witness for `map_record_id_spec` at a concrete payload and run. -/
theorem map_record_id_spec_witness :
    (run_irs_ein_endpoint (some (s2c "Bearer " ++ API_KEY)) (Json.obj []) {} 7
      { sessions := [], live := [7] }).world =
      store_session { sessions := [], live := [7] } (s2c "temp_record_id") 7 := by
  have h := map_record_id_spec.2 (some (s2c "Bearer " ++ API_KEY)) (Json.obj []) {} 7
    { sessions := [], live := [7] } { record_id := s2c "temp_record_id" } rfl rfl rfl
  exact h.1

end EinAuto
